import Mathlib

/-!
Shallow embedding of `src/Planejamento.py`, a single-user Flask planner app
backed by SQLite tables `calendar`, `simulados`, `taf_summary`, `user_profile`.

Modelling conventions:
* SQLite tables are association lists `List (String × row)` keyed by their
  primary-key column; `alookup` is `SELECT ... WHERE key=?`, `aupdate` is
  `UPDATE ... WHERE key=?`, appending is `INSERT`.
* Python `float` values (weights, heights, BMI, percentages) are modelled as
  exact rationals `ℚ`; Python `int` as `Int`/`Nat`.
* HTTP form fields are `Option String` (absent = `none`); Python falsiness of
  the empty string is modelled explicitly where the code uses `or`.
* Numeric form parsing (`int(..)`, `float(..)`) is abstracted: endpoint models
  take the already-parsed optional numeric values, since no claim concerns the
  string-to-number conversion itself.
* A request handler that raises before committing (Flask `abort(400)`, an
  uncaught exception) is modelled as `Except Unit`; `.error ()` means the
  request failed and the uncommitted transaction rolled back, leaving the
  store untouched.
* Date arithmetic (`calendar.monthrange`, `datetime.strptime("%Y-%m-%d")`,
  `date.isoformat`, `date.weekday`) is translated from CPython's documented
  proleptic-Gregorian semantics.
-/

namespace Planner

/-! ### Association-list store primitives -/

/-- SELECT the row with the given primary key (at most one row per key). -/
def alookup {α : Type} (t : List (String × α)) (k : String) : Option α :=
  (t.find? (fun p => p.1 = k)).map (·.2)

/-- UPDATE the row with the given primary key in place, leaving other rows. -/
def aupdate {α : Type} (t : List (String × α)) (k : String) (f : α → α) :
    List (String × α) :=
  t.map (fun p => if p.1 = k then (p.1, f p.2) else p)

/-- DELETE FROM t WHERE key = k. -/
def adelete {α : Type} (t : List (String × α)) (k : String) : List (String × α) :=
  t.filter (fun p => ¬ p.1 = k)

/-! ### Calendar arithmetic (CPython `calendar` / `datetime`) -/

/-- Gregorian leap-year test, as in `calendar.isleap`. -/
def isleap (y : Nat) : Bool :=
  y % 4 = 0 && (y % 100 ≠ 0 || y % 400 = 0)

/-- Day counts per 1-based month in a non-leap year (`calendar.mdays`),
with a leading 0 so that index `m` is month `m`. -/
def mdays : List Nat :=
  [0, 31, 28, 31, 30, 31, 30, 31, 31, 30, 31, 30, 31]

/-- Number of days in 1-based month `m` of year `y`. -/
def days_in_month (y m : Nat) : Nat :=
  mdays.getD m 0 + (if m = 2 ∧ isleap y then 1 else 0)

/-- Days in all years strictly before year `y` (CPython `_days_before_year`). -/
def days_before_year (y : Nat) : Nat :=
  (y - 1) * 365 + (y - 1) / 4 - (y - 1) / 100 + (y - 1) / 400

/-- Days in year `y` strictly before 1-based month `m`. -/
def days_before_month (y m : Nat) : Nat :=
  ((List.range' 1 (m - 1)).map (days_in_month y)).sum

/-- Proleptic-Gregorian ordinal of a date; 0001-01-01 is ordinal 1
(CPython `date.toordinal`). -/
def toordinal (y m d : Nat) : Nat :=
  days_before_year y + days_before_month y m + d

/-- Day of week, Monday = 0 .. Sunday = 6 (CPython `date.weekday`,
`calendar.weekday`); ordinal 1 (0001-01-01) is a Monday. -/
def weekday (y m d : Nat) : Nat :=
  (toordinal y m d + 6) % 7

/-- First weekday of the month and its day count, `calendar.monthrange(y, m)`
for 1-based `m`. -/
def monthrange (y m : Nat) : Nat × Nat :=
  (weekday y m 1, days_in_month y m)

/-! ### ISO date formatting and parsing -/

/-- Zero-pad a number below 100 to two digits (`%02d`). -/
def pad2 (n : Nat) : String :=
  if n < 10 then "0" ++ toString n else toString n

/-- Zero-pad a number below 10000 to four digits (`%04d`). -/
def pad4 (n : Nat) : String :=
  if n < 10 then "000" ++ toString n
  else if n < 100 then "00" ++ toString n
  else if n < 1000 then "0" ++ toString n
  else toString n

/-- ISO format of a date, `date(y, m, d).isoformat()`. -/
def isoformat (y m d : Nat) : String :=
  pad4 y ++ "-" ++ pad2 m ++ "-" ++ pad2 d

/-- Whitespace as Python `str.strip()` sees it: the six ASCII whitespace
characters (Unicode space characters, also stripped by Python, are outside
the ASCII scope of this model). -/
def pyIsSpace (c : Char) : Bool :=
  c = ' ' || c = '\t' || c = '\n' || c = '\r' || c = '\u000B' || c = '\u000C'

/-- Python `str.strip()`: drop leading and trailing whitespace. -/
def strip (s : String) : String :=
  ⟨((s.toList.dropWhile pyIsSpace).reverse.dropWhile pyIsSpace).reverse⟩

/-- A calendar date as parsed from an ISO string. -/
structure Ymd where
  year : Nat
  month : Nat
  day : Nat
deriving DecidableEq, Repr

/-- Numeric value of a digit list (most significant first). -/
def digitsToNat (ds : List Char) : Nat :=
  ds.foldl (fun acc c => acc * 10 + (c.toNat - '0'.toNat)) 0

/-- Day directive `%d` of CPython's `_strptime`, required (by the
"unconverted data remains" check) to consume the whole remaining input: the
regex alternation `3[01]|[12]\d|0[1-9]|[1-9]| [1-9]`. On a fully consumed
input the five alternatives are mutually exclusive — two-character forms differ
in their first character and the one-character form differs in length — so
the alternation order is immaterial here. `\d` is modelled as ASCII digits. -/
def day_end (cs : List Char) : Option Nat :=
  match cs with
  | [c1, c2] =>
    if c1 = '3' && (c2 = '0' || c2 = '1') then some (digitsToNat [c1, c2])
    else if (c1 = '1' || c1 = '2') && c2.isDigit then some (digitsToNat [c1, c2])
    else if c1 = '0' && ('1' ≤ c2 && c2 ≤ '9') then some (digitsToNat [c2])
    else if c1 = ' ' && ('1' ≤ c2 && c2 ≤ '9') then some (digitsToNat [c2])
    else none
  | [c1] => if '1' ≤ c1 && c1 ≤ '9' then some (digitsToNat [c1]) else none
  | _ => none

/-- Month directive `%m` (`1[0-2]|0[1-9]|[1-9]`), the literal `-`, then the
day directive consuming the rest. The two-character month forms need the `-`
at position 2 and the one-character form needs it at position 1, so the two
branches of the alternation are mutually exclusive and no regex backtracking
across them can occur. -/
def month_day_end (cs : List Char) : Option (Nat × Nat) :=
  match cs with
  | [] => none
  | c1 :: rest1 =>
    (match rest1 with
     | c2 :: '-' :: rest2 =>
       if c1 = '1' && (c2 = '0' || c2 = '1' || c2 = '2') then
         (day_end rest2).map (fun d => (digitsToNat [c1, c2], d))
       else if c1 = '0' && ('1' ≤ c2 && c2 ≤ '9') then
         (day_end rest2).map (fun d => (digitsToNat [c2], d))
       else none
     | _ => none) <|>
    (match rest1 with
     | '-' :: rest2 =>
       if '1' ≤ c1 && c1 ≤ '9' then
         (day_end rest2).map (fun d => (digitsToNat [c1], d))
       else none
     | _ => none)

/-- Parse of `datetime.strptime(s, "%Y-%m-%d")` as CPython's `_strptime`
compiles it: the pattern
`\d\d\d\d-(1[0-2]|0[1-9]|[1-9])-(3[01]|[12]\d|0[1-9]|[1-9]| [1-9])` — `%Y`
is exactly four digits, `%d` also matches a space-padded single digit —
matched against the entire string (`strptime` raises on unconverted trailing
data), followed by the `datetime.date` constructor's validation: year at
least 1 (four digits already cap it at 9999) and day at most the month's
length; the regex itself guarantees month 1-12 and day 1-31. Returns `none`
where CPython raises. `\d` is modelled as ASCII digits. -/
def parse_iso (s : String) : Option Ymd :=
  match s.toList with
  | y1 :: y2 :: y3 :: y4 :: '-' :: rest =>
    if y1.isDigit && y2.isDigit && y3.isDigit && y4.isDigit then
      match month_day_end rest with
      | some (m, d) =>
        let y := digitsToNat [y1, y2, y3, y4]
        if 1 ≤ y ∧ d ≤ days_in_month y m then some ⟨y, m, d⟩ else none
      | none => none
    else none
  | _ => none

/-- Date validator `_isodate_ok`: true iff `strptime(s, "%Y-%m-%d")` succeeds
(the source catches every exception and returns False, so a `None` argument
also yields False; callers passing a possibly-absent form field use
`isodate_ok_opt`). -/
def isodate_ok (s : String) : Bool :=
  (parse_iso s).isSome

/-- Validator applied to a possibly-missing form field: `_isodate_ok(None)`
hits a `TypeError` inside the `try`, caught to `False`. -/
def isodate_ok_opt : Option String → Bool
  | none => false
  | some s => isodate_ok s

/-- Age derivation `_age_from_dob`: parse the stored birthdate, then
`today.year - dob.year - ((today.month, today.day) < (dob.month, dob.day))`
with Python's lexicographic tuple comparison; `date.today()` is the `today`
parameter. `none` models the `strptime` exception on a malformed birthdate. -/
def age_from_dob (birthdate_iso : String) (today : Ymd) : Option Int :=
  (parse_iso birthdate_iso).map (fun dob =>
    (today.year : Int) - (dob.year : Int) -
      (if today.month < dob.month ∨
          (today.month = dob.month ∧ today.day < dob.day) then 1 else 0))

/-! ### Data model: the four tables -/

/-- Row of `calendar` (primary key `cdate`): free-text note and a status
constrained by `CHECK(status IN ('none','ok','miss'))`. Both write paths
always supply non-NULL values, so the fields are plain strings. -/
structure CalRow where
  note : String
  status : String
deriving DecidableEq, Repr

/-- CHECK constraint on `calendar.status`. -/
def statusOk (s : String) : Bool :=
  s = "none" || s = "ok" || s = "miss"

/-- Row of `simulados`: exam date, question count `q`, correct count `a`,
optional discipline label. The auto-increment `id` primary key is carried
so that delete-by-id is expressible. -/
structure SimRow where
  id : Nat
  sdate : String
  q : Int
  a : Int
  disc : String
deriving DecidableEq, Repr

/-- Row of `taf_summary` (primary key `adate`): every metric column is
nullable. -/
structure TafRow where
  running_km : Option ℚ
  running_minutes : Option Int
  pushups : Option Int
  situps : Option Int
  pullups : Option Int
  weight : Option ℚ
  bmi : Option ℚ
deriving DecidableEq, Repr

/-- Row of `user_profile`; the `CHECK (id=1)` primary key makes the table a
singleton, so the store holds `Option ProfileRow` and `some` means the one
row with id 1 exists. Both columns are nullable in the schema. -/
structure ProfileRow where
  height_m : Option ℚ
  birthdate : Option String
deriving DecidableEq, Repr

/-- The whole SQLite database. -/
structure Store where
  calendar : List (String × CalRow)
  simulados : List SimRow
  taf_summary : List (String × TafRow)
  user_profile : Option ProfileRow
deriving Repr

/-! ### Schema initialisation (`_ensure_schema_and_profile`) -/

/-- Profile part of `_ensure_schema_and_profile` (the table/column creation
is idempotent DDL with no row effect): insert `(1, 1.71, '1999-06-19')` when
no row with id 1 exists, otherwise backfill exactly the NULL fields with the
same defaults. -/
def ensure_profile : Option ProfileRow → ProfileRow
  | none => ⟨some (1.71 : ℚ), some "1999-06-19"⟩
  | some p =>
    ⟨match p.height_m with
      | none => some (1.71 : ℚ)
      | some h => some h,
     match p.birthdate with
      | none => some "1999-06-19"
      | some b => some b⟩

/-- The `before_request` hook: every request first runs
`_ensure_schema_and_profile` against the store. -/
def ensure_schema_and_profile (s : Store) : Store :=
  { s with user_profile := some (ensure_profile s.user_profile) }

/-! ### Calendar view (`calendar_view`) -/

/-- One cell of the rendered month grid. Padding cells are bare
`{'in_month': False}` dicts; `dict.get` on them returns `None`, modelled by
`none` fields. -/
structure Cell where
  in_month : Bool
  day : Option Nat
  cdate : Option String
  note : Option String
  status : Option String
deriving DecidableEq, Repr

/-- A padding cell `{'in_month': False}`. -/
def padCell : Cell :=
  ⟨false, none, none, none, none⟩

/-- In-month cell for day `d` of the (1-based) month: note and status come
from the stored row when one exists, else `''` and `'none'`. -/
def dayCell (cal : List (String × CalRow)) (year month1 d : Nat) : Cell :=
  let cdate := isoformat year month1 d
  match alookup cal cdate with
  | some r => ⟨true, some d, some cdate, some r.note, some r.status⟩
  | none => ⟨true, some d, some cdate, some "", some "none"⟩

/-- The `while len(grid) % 7 != 0: grid.append(...)` tail padding: append
padding cells until the length is a multiple of 7. -/
def padToWeek (g : List Cell) : List Cell :=
  g ++ List.replicate ((7 - g.length % 7) % 7) padCell

/-- Grid builder of `calendar_view` for 0-based `month`: leading padding of
`(first_weekday - 6) % 7` cells (Sunday-first alignment of Python's
Monday-0 weekday), one cell per day of the month, tail padding to a
multiple of 7. The dict `entries` of rows with `cdate BETWEEN` the month's
first and last day is realised by direct keyed lookup, which agrees with it
on every in-month date. -/
def calendar_grid (cal : List (String × CalRow)) (year month : Nat) : List Cell :=
  let first_weekday := (monthrange year (month + 1)).1
  let days := (monthrange year (month + 1)).2
  let pad_start := (((first_weekday : Int) - 6) % 7).toNat
  padToWeek
    (List.replicate pad_start padCell ++
      (List.range' 1 days).map (fun d => dayCell cal year (month + 1) d))

/-! ### Calendar save and clear -/

/-- The stored status of a date as the save loop reads it:
`prev['status'] if prev else 'none'`. -/
def calStatus (cal : List (String × CalRow)) (cdate : String) : String :=
  match alookup cal cdate with
  | some r => r.status
  | none => "none"

/-- The note written for a date: the submitted field `or ''`, stripped. -/
def saved_note (noteF : String → Option String) (cdate : String) : String :=
  strip ((noteF cdate).getD "")

/-- The status written for a date: the submitted field `or` the previously
stored status (Python `or`, so an empty submitted string also falls through
to the stored status, defaulting to `'none'` with no row). -/
def saved_status (statusF : String → Option String)
    (cal : List (String × CalRow)) (cdate : String) : String :=
  match statusF cdate with
  | some v => if v = "" then calStatus cal cdate else v
  | none => calStatus cal cdate

/-- Body of one iteration of the `calendar_save` day loop for date `cdate`:
an existing row is UPDATEd with the computed note/status, a missing row is
INSERTed only when it is not the empty `('', 'none')` row. A status violating
the CHECK constraint raises `IntegrityError`, modelled as `.error ()`. -/
def calendar_save_day (noteF statusF : String → Option String)
    (cal : List (String × CalRow)) (cdate : String) :
    Except Unit (List (String × CalRow)) :=
  let note := saved_note noteF cdate
  let status := saved_status statusF cal cdate
  match alookup cal cdate with
  | some _ =>
    if statusOk status then .ok (aupdate cal cdate (fun _ => ⟨note, status⟩))
    else .error ()
  | none =>
    if note ≠ "" ∨ status ≠ "none" then
      if statusOk status then .ok (cal ++ [(cdate, ⟨note, status⟩)])
      else .error ()
    else .ok cal

/-- ISO dates of every day of 0-based `month` of `year`, in day order —
the keys the `calendar_save` loop walks. -/
def month_dates (year month : Nat) : List String :=
  (List.range' 1 (monthrange year (month + 1)).2).map
    (fun d => isoformat year (month + 1) d)

/-- POST `/calendar/save`: for each day of the month run the save-day body;
`monthrange` (hence `datetime.date`) raises on a month outside 0-11 or a
year outside 1-9999, before any write. -/
def calendar_save (cal : List (String × CalRow)) (year month : Nat)
    (noteF statusF : String → Option String) :
    Except Unit (List (String × CalRow)) :=
  if month ≥ 12 ∨ year = 0 ∨ year > 9999 then .error ()
  else (month_dates year month).foldlM (calendar_save_day noteF statusF) cal

/-- POST `/calendar/clear/<cdate>`: `abort(400)` on an invalid date before
any store access, else DELETE the row. -/
def calendar_clear_day (cal : List (String × CalRow)) (cdate : String) :
    Except Unit (List (String × CalRow)) :=
  if isodate_ok cdate then .ok (adelete cal cdate) else .error ()

/-! ### Simulados (exam attempts) -/

/-- Aggregates shown by `simulados_view`. -/
structure SimStats where
  count : Nat
  avg : ℚ
  best : ℚ
  worst : ℚ
deriving DecidableEq, Repr

/-- Python `max` over a nonempty list (callers guard emptiness). -/
def listMax : List ℚ → ℚ
  | [] => 0
  | x :: xs => xs.foldl max x

/-- Python `min` over a nonempty list (callers guard emptiness). -/
def listMin : List ℚ → ℚ
  | [] => 0
  | x :: xs => xs.foldl min x

/-- Statistics block of `simulados_view`: over the fetched rows, percentage
`100.0 * a / q` for each row with truthy (nonzero) `q`, then average, best,
worst, each guarded to `0.0` on an empty percentage list; everything `0.0`
when there are no rows at all. Aggregation is order-independent, so the
`ORDER BY` of the fetch is immaterial. -/
def simulados_stats (rows : List SimRow) : SimStats :=
  let count := rows.length
  if count ≠ 0 then
    let percents := rows.filterMap (fun r =>
      if r.q ≠ 0 then some ((100 : ℚ) * (r.a : ℚ) / (r.q : ℚ)) else none)
    { count := count
      avg := if percents.length ≠ 0 then percents.sum / (percents.length : ℚ) else 0
      best := if percents ≠ [] then listMax percents else 0
      worst := if percents ≠ [] then listMin percents else 0 }
  else
    { count := count, avg := 0, best := 0, worst := 0 }

/-- Next auto-increment id for an `INTEGER PRIMARY KEY` insert without an
explicit id: one more than the largest existing id. -/
def nextId (rows : List SimRow) : Nat :=
  (rows.map (·.id)).foldl max 0 + 1

/-- POST `/simulados`: reject when `q <= 0 or a < 0 or a > q` (flash and
redirect, nothing persisted), else INSERT the attempt. `disc` is the form
field `or ''`, stripped. -/
def simulados_add (rows : List SimRow) (sdate : String) (q a : Int)
    (disc : Option String) : List SimRow :=
  if q ≤ 0 ∨ a < 0 ∨ a > q then rows
  else rows ++ [⟨nextId rows, sdate, q, a, strip (disc.getD "")⟩]

/-- GET `/simulados/del/<int:rid>`: DELETE by id (no-op when absent). -/
def simulados_del (rows : List SimRow) (rid : Nat) : List SimRow :=
  rows.filter (fun r => ¬ r.id = rid)

/-- POST `/simulados/del-date/<sdate>`: `abort(400)` on an invalid date
before any store access, else DELETE all attempts of that date. -/
def simulados_delete_by_date (rows : List SimRow) (sdate : String) :
    Except Unit (List SimRow) :=
  if isodate_ok sdate then .ok (rows.filter (fun r => ¬ r.sdate = sdate))
  else .error ()

/-! ### TAF (fitness log) -/

/-- Effective target date of `taf_add`:
`request.form.get('date') or date.today().isoformat()` — an absent or empty
field falls back to today. -/
def taf_effective_date (dateField : Option String) (today : String) : String :=
  match dateField with
  | some s => if s = "" then today else s
  | none => today

/-- The `ON CONFLICT(adate) DO UPDATE` row merge: each column takes
`COALESCE(excluded.col, stored.col)`; the excluded `running_minutes` is the
literal NULL of the VALUES tuple, and `bmi` is not touched by the upsert. -/
def tafMerge (old : TafRow) (running_km : Option ℚ)
    (pushups situps pullups : Option Int) (weight : Option ℚ) : TafRow :=
  { running_km := match running_km with
      | some v => some v
      | none => old.running_km
    running_minutes := old.running_minutes
    pushups := match pushups with
      | some v => some v
      | none => old.pushups
    situps := match situps with
      | some v => some v
      | none => old.situps
    pullups := match pullups with
      | some v => some v
      | none => old.pullups
    weight := match weight with
      | some v => some v
      | none => old.weight
    bmi := old.bmi }

/-- POST `/taf`: upsert the fitness day, then, when a weight was submitted,
read the live profile height and persist `weight / height ** 2` as the
row's BMI. A NULL profile height (unreachable after `before_request`
seeding) or a zero height would raise in Python; both are `.error ()`. -/
def taf_add (taf : List (String × TafRow)) (profile : ProfileRow)
    (dateField : Option String) (today : String) (running_km : Option ℚ)
    (pushups situps pullups : Option Int) (weight : Option ℚ) :
    Except Unit (List (String × TafRow)) :=
  let adate := taf_effective_date dateField today
  let t1 :=
    match alookup taf adate with
    | none => taf ++
        [(adate, ⟨running_km, none, pushups, situps, pullups, weight, none⟩)]
    | some old =>
        aupdate taf adate
          (fun _ => tafMerge old running_km pushups situps pullups weight)
  match weight with
  | none => .ok t1
  | some w =>
    match profile.height_m with
    | none => .error ()
    | some h =>
      if h = 0 then .error ()
      else .ok (aupdate t1 adate (fun r => { r with bmi := some (w / h ^ 2) }))

/-- POST `/taf/del/<adate>`: `abort(400)` on an invalid date before any
store access, else DELETE the fitness day. -/
def taf_delete_day (taf : List (String × TafRow)) (adate : String) :
    Except Unit (List (String × TafRow)) :=
  if isodate_ok adate then .ok (adelete taf adate) else .error ()

/-- POST `/taf/del-range`: validate both (possibly missing) form fields
before any store access, else DELETE rows with
`adate BETWEEN start AND end` — SQLite string comparison, inclusive. -/
def taf_delete_range (taf : List (String × TafRow))
    (start stop : Option String) : Except Unit (List (String × TafRow)) :=
  if isodate_ok_opt start && isodate_ok_opt stop then
    .ok (taf.filter (fun p =>
      ¬ (start.getD "" ≤ p.1 ∧ p.1 ≤ stop.getD "")))
  else .error ()

/-! ### Requests and the store-level step -/

/-- One inbound mutating request with its inputs (form/url values and, for
`/taf`, the current date the handler would read from the clock). -/
inductive Op where
  | calSave (year month : Nat) (noteF statusF : String → Option String)
  | calClear (cdate : String)
  | simAdd (sdate : String) (q a : Int) (disc : Option String)
  | simDel (rid : Nat)
  | simDelByDate (sdate : String)
  | tafAdd (dateField : Option String) (today : String) (running_km : Option ℚ)
      (pushups situps pullups : Option Int) (weight : Option ℚ)
  | tafDelDay (adate : String)
  | tafDelRange (start stop : Option String)

/-- Handling of one request: `before_request` initialisation first, then the
endpoint body; a failing body (400 or exception) commits nothing, leaving
the initialised store. -/
def step (s : Store) (op : Op) : Store :=
  let s := ensure_schema_and_profile s
  match op with
  | .calSave year month noteF statusF =>
    match calendar_save s.calendar year month noteF statusF with
    | .ok c => { s with calendar := c }
    | .error _ => s
  | .calClear cdate =>
    match calendar_clear_day s.calendar cdate with
    | .ok c => { s with calendar := c }
    | .error _ => s
  | .simAdd sdate q a disc =>
    { s with simulados := simulados_add s.simulados sdate q a disc }
  | .simDel rid => { s with simulados := simulados_del s.simulados rid }
  | .simDelByDate sdate =>
    match simulados_delete_by_date s.simulados sdate with
    | .ok r => { s with simulados := r }
    | .error _ => s
  | .tafAdd dateField today running_km pushups situps pullups weight =>
    match s.user_profile with
    | some p =>
      match taf_add s.taf_summary p dateField today running_km pushups situps
          pullups weight with
      | .ok t => { s with taf_summary := t }
      | .error _ => s
    | none => s
  | .tafDelDay adate =>
    match taf_delete_day s.taf_summary adate with
    | .ok t => { s with taf_summary := t }
    | .error _ => s
  | .tafDelRange start stop =>
    match taf_delete_range s.taf_summary start stop with
    | .ok t => { s with taf_summary := t }
    | .error _ => s

/-! ### Spec-side definition for the exam-statistics refinement (§4.6) -/

/-- Modelled from the spec: over rows with `q > 0`, the percentage
`100 × a / q` per row, aggregated as count, mean, maximum, minimum, with the
empty set yielding count 0 and all aggregates 0.0. -/
def specExamStats (rows : List SimRow) : SimStats :=
  let percents := (rows.filter (fun r => 0 < r.q)).map
    (fun r => (100 : ℚ) * (r.a : ℚ) / (r.q : ℚ))
  { count := percents.length
    avg := if percents = [] then 0 else percents.sum / (percents.length : ℚ)
    best := if percents = [] then 0 else listMax percents
    worst := if percents = [] then 0 else listMin percents }

/-! ### Association-list lemmas -/

theorem alookup_nil {α : Type} (k : String) : alookup ([] : List (String × α)) k = none :=
  rfl

theorem alookup_cons {α : Type} (p : String × α) (t : List (String × α)) (k : String) :
    alookup (p :: t) k = if p.1 = k then some p.2 else alookup t k := by
  by_cases h : p.1 = k <;> simp [alookup, List.find?_cons, h]

theorem alookup_aupdate_self {α : Type} (t : List (String × α)) (k : String) (f : α → α) :
    alookup (aupdate t k f) k = (alookup t k).map f := by
  induction t with
  | nil => rfl
  | cons p t ih =>
    by_cases h : p.1 = k
    · simp [aupdate, alookup_cons, h]
    · simpa [aupdate, alookup_cons, h] using ih

theorem aupdate_cons {α : Type} (p : String × α) (t : List (String × α)) (k : String)
    (f : α → α) :
    aupdate (p :: t) k f = (if p.1 = k then (p.1, f p.2) else p) :: aupdate t k f :=
  rfl

theorem alookup_aupdate_ne {α : Type} (t : List (String × α)) (k k' : String) (f : α → α)
    (h : k' ≠ k) :
    alookup (aupdate t k f) k' = alookup t k' := by
  induction t with
  | nil => rfl
  | cons p t ih =>
    have hk : ¬ k = k' := fun e => h e.symm
    by_cases hp : p.1 = k
    · simp [aupdate_cons, alookup_cons, hp, hk, ih]
    · simp [aupdate_cons, alookup_cons, hp, ih]

theorem alookup_append_single_self {α : Type} (t : List (String × α)) (k : String) (v : α)
    (h : alookup t k = none) :
    alookup (t ++ [(k, v)]) k = some v := by
  induction t with
  | nil => simp [alookup_cons]
  | cons p t ih =>
    rw [alookup_cons] at h
    by_cases hp : p.1 = k
    · simp [hp] at h
    · rw [List.cons_append, alookup_cons, if_neg hp]
      exact ih (by simpa [hp] using h)

theorem alookup_append_single_ne {α : Type} (t : List (String × α)) (k k' : String) (v : α)
    (h : k' ≠ k) :
    alookup (t ++ [(k, v)]) k' = alookup t k' := by
  induction t with
  | nil => simp [alookup_cons, alookup_nil, show ¬ k = k' from fun e => h e.symm]
  | cons p t ih =>
    rw [List.cons_append, alookup_cons, alookup_cons]
    by_cases hp : p.1 = k' <;> simp [hp, ih]

/-! ### Claim theorems -/

/-- C8: for every parsed birth date and every reference date, the derived age
equals `today.year − birth.year − 1` when `(today.month, today.day)` precedes
`(birth.month, birth.day)` lexicographically and `today.year − birth.year`
otherwise; for birthdate 1999-06-19 the age on 2024-06-18 is 24 and on
2024-06-19 is 25. The age is computed on read by the pure `age_from_dob` —
no table of the data model has an age column, so it is never stored. -/
theorem C8_age_derivation :
    (∀ (s : String) (dob today : Ymd), parse_iso s = some dob →
      age_from_dob s today =
        some (if today.month < dob.month ∨ (today.month = dob.month ∧ today.day < dob.day)
          then (today.year : Int) - (dob.year : Int) - 1
          else (today.year : Int) - (dob.year : Int))) ∧
    age_from_dob "1999-06-19" ⟨2024, 6, 18⟩ = some 24 ∧
    age_from_dob "1999-06-19" ⟨2024, 6, 19⟩ = some 25 := by
  refine ⟨?_, by decide, by decide⟩
  intro s dob today h
  simp only [age_from_dob, h, Option.map_some]
  by_cases hc : today.month < dob.month ∨ (today.month = dob.month ∧ today.day < dob.day) <;>
    simp [hc]

/-- Witness for C8: the general formula applied at birthdate 1999-06-19 and
reference date 2024-07-01. -/
theorem C8_age_derivation_witness :
    age_from_dob "1999-06-19" ⟨2024, 7, 1⟩ = some 25 := by
  have h := C8_age_derivation.1 "1999-06-19" ⟨1999, 6, 19⟩ ⟨2024, 7, 1⟩ (by decide)
  norm_num at h
  exact h

/-- Anchor for the `%Y` directive: a three-digit year is rejected, as
CPython's `strptime` requires exactly four year digits. -/
theorem isodate_ok_rejects_short_year :
    isodate_ok "202-01-01" = false ∧ isodate_ok "20-1-1" = false := by
  decide

/-- Anchor for the `%d` directive: a space-padded single-digit day is
accepted, as CPython's `%d` also matches `" [1-9]"`. -/
theorem isodate_ok_accepts_space_padded_day :
    isodate_ok "2024-06- 9" = true ∧ parse_iso "2024-06- 9" = some ⟨2024, 6, 9⟩ := by
  decide

/-- C6: every date-validated deletion endpoint (clear calendar day, delete
exams by date, delete fitness day, delete fitness range) checks each supplied
date string against strict ISO parsing before any store access; an invalid
date fails the whole request with a 400 (`.error ()`), so no row of any table
is mutated — including a range deletion where only one end is invalid. -/
theorem C6_date_validation :
    ∀ (cal : List (String × CalRow)) (rows : List SimRow) (taf : List (String × TafRow))
      (d : String) (start stop : Option String),
      (isodate_ok d = false →
        calendar_clear_day cal d = .error () ∧
        simulados_delete_by_date rows d = .error () ∧
        taf_delete_day taf d = .error ()) ∧
      ((isodate_ok_opt start = false ∨ isodate_ok_opt stop = false) →
        taf_delete_range taf start stop = .error ()) := by
  intro cal rows taf d start stop
  constructor
  · intro h
    refine ⟨?_, ?_, ?_⟩ <;>
      simp [calendar_clear_day, simulados_delete_by_date, taf_delete_day, h]
  · intro h
    rcases h with h | h <;> simp [taf_delete_range, h]

/-- Witness for C6: the invalid date "2024-13-40" is rejected by all four
endpoints over nonempty tables, including a range with one invalid end. -/
theorem C6_date_validation_witness :
    isodate_ok "2024-13-40" = false ∧
    calendar_clear_day [("2024-01-05", ⟨"x", "ok"⟩)] "2024-13-40" = .error () ∧
    simulados_delete_by_date [⟨1, "2024-01-05", 10, 8, ""⟩] "2024-13-40" = .error () ∧
    taf_delete_day [("2024-01-05", ⟨none, none, none, none, none, none, none⟩)]
      "2024-13-40" = .error () ∧
    taf_delete_range [("2024-01-05", ⟨none, none, none, none, none, none, none⟩)]
      (some "2024-01-01") (some "2024-13-40") = .error () := by
  have hbad : isodate_ok "2024-13-40" = false := by decide
  have h := C6_date_validation [("2024-01-05", ⟨"x", "ok"⟩)] [⟨1, "2024-01-05", 10, 8, ""⟩]
    [("2024-01-05", ⟨none, none, none, none, none, none, none⟩)] "2024-13-40"
    (some "2024-01-01") (some "2024-13-40")
  exact ⟨hbad, (h.1 hbad).1, (h.1 hbad).2.1, (h.1 hbad).2.2, h.2 (Or.inr (by decide))⟩

/-- C7: an exam submission is checked against `q > 0` and `0 ≤ a ≤ q` before
insertion; a violating submission leaves the table unchanged (nothing is
persisted), and consequently the row invariant `q > 0 ∧ 0 ≤ a ≤ q` is
preserved by every add. -/
theorem C7_exam_constraints :
    ∀ (rows : List SimRow) (sdate : String) (q a : Int) (disc : Option String),
      ((q ≤ 0 ∨ a < 0 ∨ q < a) → simulados_add rows sdate q a disc = rows) ∧
      ((∀ r ∈ rows, 0 < r.q ∧ 0 ≤ r.a ∧ r.a ≤ r.q) →
        ∀ r ∈ simulados_add rows sdate q a disc, 0 < r.q ∧ 0 ≤ r.a ∧ r.a ≤ r.q) := by
  intro rows sdate q a disc
  constructor
  · intro h
    rw [simulados_add, if_pos (show q ≤ 0 ∨ a < 0 ∨ a > q from h)]
  · intro hinv r hr
    rw [simulados_add] at hr
    by_cases hc : q ≤ 0 ∨ a < 0 ∨ a > q
    · rw [if_pos hc] at hr
      exact hinv r hr
    · rw [if_neg hc] at hr
      rcases List.mem_append.1 hr with h1 | h2
      · exact hinv r h1
      · push_neg at hc
        rw [List.mem_singleton] at h2
        subst h2
        exact ⟨hc.1, hc.2.1, hc.2.2⟩

/-- Witness for C7: an out-of-range submission (`q = 0`) persists nothing, and
a valid add keeps every stored row inside the constraints — checked on the
freshly inserted row. -/
theorem C7_exam_constraints_witness :
    simulados_add [] "2024-01-01" 0 5 none = [] ∧
    (0 < (⟨2, "2024-01-02", 20, 10, ""⟩ : SimRow).q ∧
      0 ≤ (⟨2, "2024-01-02", 20, 10, ""⟩ : SimRow).a ∧
      (⟨2, "2024-01-02", 20, 10, ""⟩ : SimRow).a ≤ (⟨2, "2024-01-02", 20, 10, ""⟩ : SimRow).q) := by
  constructor
  · exact (C7_exam_constraints [] "2024-01-01" 0 5 none).1 (Or.inl (by norm_num))
  · exact (C7_exam_constraints [⟨1, "2024-01-01", 10, 8, ""⟩] "2024-01-02" 20 10 none).2
      (by decide) ⟨2, "2024-01-02", 20, 10, ""⟩ (by decide)

/-! ### TAF upsert lemmas -/

/-- Central case analysis of a successful `taf_add`: the row stored under the
effective date is the coalesce-merge (or fresh insert) of the submission, with
BMI overwritten from the live profile height exactly when a weight was
submitted. -/
theorem taf_add_ok_lookup (taf : List (String × TafRow)) (profile : ProfileRow)
    (dateField : Option String) (today : String) (rk : Option ℚ)
    (pu si pl : Option Int) (w : Option ℚ) (t' : List (String × TafRow))
    (adate : String) (base : TafRow)
    (hd : adate = taf_effective_date dateField today)
    (hb : base = (match alookup taf adate with
      | none => (⟨rk, none, pu, si, pl, w, none⟩ : TafRow)
      | some old => tafMerge old rk pu si pl w))
    (h : taf_add taf profile dateField today rk pu si pl w = .ok t') :
    (w = none ∧ alookup t' adate = some base) ∨
    (∃ wv hgt, w = some wv ∧ profile.height_m = some hgt ∧ ¬ hgt = 0 ∧
      alookup t' adate = some { base with bmi := some (wv / hgt ^ 2) }) := by
  subst hd
  rcases hlk : alookup taf (taf_effective_date dateField today) with _ | old
  · rcases w with _ | wv
    · left
      simp only [taf_add, hlk] at h
      cases h
      exact ⟨rfl, by rw [hb, hlk, alookup_append_single_self _ _ _ hlk]⟩
    · right
      rcases hh : profile.height_m with _ | hgt
      · simp [taf_add, hlk, hh] at h
      · by_cases h0 : hgt = 0
        · simp [taf_add, hlk, hh, h0] at h
        · simp only [taf_add, hlk, hh, if_neg h0] at h
          cases h
          refine ⟨wv, hgt, rfl, rfl, h0, ?_⟩
          rw [hb, hlk, alookup_aupdate_self,
            alookup_append_single_self _ _ _ hlk]
          rfl
  · rcases w with _ | wv
    · left
      simp only [taf_add, hlk] at h
      cases h
      exact ⟨rfl, by rw [hb, hlk, alookup_aupdate_self, hlk]; rfl⟩
    · right
      rcases hh : profile.height_m with _ | hgt
      · simp [taf_add, hlk, hh] at h
      · by_cases h0 : hgt = 0
        · simp [taf_add, hlk, hh, h0] at h
        · simp only [taf_add, hlk, hh, if_neg h0] at h
          cases h
          refine ⟨wv, hgt, rfl, rfl, h0, ?_⟩
          rw [hb, hlk, alookup_aupdate_self, alookup_aupdate_self, hlk]
          rfl

/-- A `taf_add` with no submitted weight always succeeds. -/
theorem taf_add_none_ok (taf : List (String × TafRow)) (profile : ProfileRow)
    (dateField : Option String) (today : String) (rk : Option ℚ)
    (pu si pl : Option Int) :
    ∃ t', taf_add taf profile dateField today rk pu si pl none = .ok t' := by
  rcases hlk : alookup taf (taf_effective_date dateField today) with _ | old
  · exact ⟨taf ++ [(taf_effective_date dateField today,
      ⟨rk, none, pu, si, pl, none, none⟩)], by simp only [taf_add, hlk]⟩
  · exact ⟨aupdate taf (taf_effective_date dateField today)
      (fun _ => tafMerge old rk pu si pl none), by simp only [taf_add, hlk]⟩

/-- C1: an upsert on a date that already has a stored fitness row replaces
each of the six submitted columns only when the incoming value is non-null and
preserves the stored value otherwise (the incoming running-minutes is always
the NULL of the VALUES tuple, so that column is always preserved); in
particular a submission carrying only push-ups leaves the stored weight and
BMI of that date unchanged. -/
theorem C1_upsert_coalesce :
    ∀ (taf : List (String × TafRow)) (profile : ProfileRow) (d today : String)
      (rk : Option ℚ) (pu si pl : Option Int) (w : Option ℚ) (old : TafRow)
      (t' : List (String × TafRow)),
      ¬ d = "" →
      alookup taf d = some old →
      taf_add taf profile (some d) today rk pu si pl w = .ok t' →
      ∃ r', alookup t' d = some r' ∧
        r'.running_km = (match rk with | some v => some v | none => old.running_km) ∧
        r'.running_minutes = old.running_minutes ∧
        r'.pushups = (match pu with | some v => some v | none => old.pushups) ∧
        r'.situps = (match si with | some v => some v | none => old.situps) ∧
        r'.pullups = (match pl with | some v => some v | none => old.pullups) ∧
        r'.weight = (match w with | some v => some v | none => old.weight) ∧
        (w = none → r'.weight = old.weight ∧ r'.bmi = old.bmi) := by
  intro taf profile d today rk pu si pl w old t' hne hlk h
  have hd : taf_effective_date (some d) today = d := by
    simp [taf_effective_date, hne]
  have hb := taf_add_ok_lookup taf profile (some d) today rk pu si pl w t' d
    (tafMerge old rk pu si pl w) hd.symm (by rw [hlk]) h
  rcases hb with ⟨hw, hl⟩ | ⟨wv, hgt, hw, _, _, hl⟩
  · subst hw
    exact ⟨tafMerge old rk pu si pl none, hl, rfl, rfl, rfl, rfl, rfl, rfl,
      fun _ => ⟨rfl, rfl⟩⟩
  · subst hw
    refine ⟨_, hl, rfl, rfl, rfl, rfl, rfl, rfl, fun he => ?_⟩
    cases he

/-- Witness for C1: on a fully-populated stored row for 2024-03-10, an upsert
supplying only push-ups = 30 updates push-ups and preserves every other
column, including weight and BMI. -/
theorem C1_upsert_coalesce_witness :
    (⟨some 5, some 30, some 30, some 25, some 8, some 70, some 24⟩ : TafRow).weight =
      (⟨some 5, some 30, some 20, some 25, some 8, some 70, some 24⟩ : TafRow).weight ∧
    (⟨some 5, some 30, some 30, some 25, some 8, some 70, some 24⟩ : TafRow).bmi =
      (⟨some 5, some 30, some 20, some 25, some 8, some 70, some 24⟩ : TafRow).bmi := by
  obtain ⟨r', hl, _, _, _, _, _, _, h7⟩ :=
    C1_upsert_coalesce
      [("2024-03-10", ⟨some 5, some 30, some 20, some 25, some 8, some 70, some 24⟩)]
      ⟨some (1.71 : ℚ), some "1999-06-19"⟩ "2024-03-10" "2024-09-01"
      none (some 30) none none none
      ⟨some 5, some 30, some 20, some 25, some 8, some 70, some 24⟩
      [("2024-03-10", ⟨some 5, some 30, some 30, some 25, some 8, some 70, some 24⟩)]
      (by decide) rfl rfl
  have hr : r' = ⟨some 5, some 30, some 30, some 25, some 8, some 70, some 24⟩ := by
    have hc : alookup
        [("2024-03-10",
          (⟨some 5, some 30, some 30, some 25, some 8, some 70, some 24⟩ : TafRow))]
        "2024-03-10" =
        some ⟨some 5, some 30, some 30, some 25, some 8, some 70, some 24⟩ := rfl
    rw [hc] at hl
    exact Option.some_inj.1 hl.symm
  obtain ⟨hw, hb⟩ := h7 rfl
  rw [hr] at hw hb
  exact ⟨hw, hb⟩

/-- C2: an upsert submitting a non-null weight leaves the row of the effective
date with `bmi = weight / height²`, where the height is the profile height
read from the store during the operation; an upsert submitting a null weight
leaves the stored BMI (or NULL for a fresh row) untouched. -/
theorem C2_bmi_recompute :
    ∀ (taf : List (String × TafRow)) (profile : ProfileRow) (dateField : Option String)
      (today : String) (rk : Option ℚ) (pu si pl : Option Int) (w hgt : ℚ)
      (t' : List (String × TafRow)),
      profile.height_m = some hgt →
      (taf_add taf profile dateField today rk pu si pl (some w) = .ok t' →
        ∃ r', alookup t' (taf_effective_date dateField today) = some r' ∧
          r'.weight = some w ∧ r'.bmi = some (w / hgt ^ 2)) ∧
      (∀ t'', taf_add taf profile dateField today rk pu si pl none = .ok t'' →
        ∃ r'', alookup t'' (taf_effective_date dateField today) = some r'' ∧
          r''.bmi = (match alookup taf (taf_effective_date dateField today) with
            | some o => o.bmi
            | none => none)) := by
  intro taf profile dateField today rk pu si pl w hgt t' hh
  constructor
  · intro h
    rcases hlk : alookup taf (taf_effective_date dateField today) with _ | old
    · have hb := taf_add_ok_lookup taf profile dateField today rk pu si pl (some w) t'
        (taf_effective_date dateField today)
        ⟨rk, none, pu, si, pl, some w, none⟩ rfl (by rw [hlk]) h
      rcases hb with ⟨hw, _⟩ | ⟨wv, hgt', hw, hh', _, hl⟩
      · cases hw
      · rw [hh] at hh'
        cases hw
        cases hh'
        exact ⟨_, hl, rfl, rfl⟩
    · have hb := taf_add_ok_lookup taf profile dateField today rk pu si pl (some w) t'
        (taf_effective_date dateField today)
        (tafMerge old rk pu si pl (some w)) rfl (by rw [hlk]) h
      rcases hb with ⟨hw, _⟩ | ⟨wv, hgt', hw, hh', _, hl⟩
      · cases hw
      · rw [hh] at hh'
        cases hw
        cases hh'
        exact ⟨_, hl, rfl, rfl⟩
  · intro t'' h
    rcases hlk : alookup taf (taf_effective_date dateField today) with _ | old
    · have hb := taf_add_ok_lookup taf profile dateField today rk pu si pl none t''
        (taf_effective_date dateField today)
        ⟨rk, none, pu, si, pl, none, none⟩ rfl (by rw [hlk]) h
      rcases hb with ⟨_, hl⟩ | ⟨wv, _, hw, _, _, _⟩
      · exact ⟨_, hl, rfl⟩
      · cases hw
    · have hb := taf_add_ok_lookup taf profile dateField today rk pu si pl none t''
        (taf_effective_date dateField today)
        (tafMerge old rk pu si pl none) rfl (by rw [hlk]) h
      rcases hb with ⟨_, hl⟩ | ⟨wv, _, hw, _, _, _⟩
      · exact ⟨_, hl, rfl⟩
      · cases hw

/-- Witness for C2: an upsert of weight 70 on an empty store with profile
height 1.71 stores weight 70 and BMI 70 / 1.71². -/
theorem C2_bmi_recompute_witness :
    (⟨none, none, none, none, none, some (70 : ℚ),
        some ((70 : ℚ) / (1.71 : ℚ) ^ 2)⟩ : TafRow).weight = some (70 : ℚ) ∧
    (⟨none, none, none, none, none, some (70 : ℚ),
        some ((70 : ℚ) / (1.71 : ℚ) ^ 2)⟩ : TafRow).bmi =
      some ((70 : ℚ) / (1.71 : ℚ) ^ 2) := by
  obtain ⟨r', hl, hw, hb⟩ :=
    (C2_bmi_recompute [] ⟨some (1.71 : ℚ), some "1999-06-19"⟩ (some "2024-05-01")
      "2024-06-01" none none none none 70 (1.71 : ℚ)
      [("2024-05-01",
        ⟨none, none, none, none, none, some 70, some ((70 : ℚ) / (1.71 : ℚ) ^ 2)⟩)]
      rfl).1
    (by simp [taf_add, taf_effective_date, alookup, aupdate]; norm_num)
  have hr : r' = ⟨none, none, none, none, none, some (70 : ℚ),
      some ((70 : ℚ) / (1.71 : ℚ) ^ 2)⟩ := by
    have hc : alookup
        [("2024-05-01",
          (⟨none, none, none, none, none, some (70 : ℚ),
            some ((70 : ℚ) / (1.71 : ℚ) ^ 2)⟩ : TafRow))]
        (taf_effective_date (some "2024-05-01") "2024-06-01") =
        some ⟨none, none, none, none, none, some (70 : ℚ),
          some ((70 : ℚ) / (1.71 : ℚ) ^ 2)⟩ := rfl
    rw [hc] at hl
    exact Option.some_inj.1 hl.symm
  rw [hr] at hw hb
  exact ⟨hw, hb⟩

/-- C10: an add/update-fitness-day submission with an absent or empty date
field targets today's date instead of failing: the request behaves exactly as
if today's ISO date had been submitted, and on success the row keyed by today
is present. -/
theorem C10_dateless_targets_today :
    ∀ (taf : List (String × TafRow)) (profile : ProfileRow) (dateField : Option String)
      (today : String) (rk : Option ℚ) (pu si pl : Option Int) (w : Option ℚ),
      (dateField = none ∨ dateField = some "") →
      (taf_effective_date dateField today = today ∧
       taf_add taf profile dateField today rk pu si pl w =
         taf_add taf profile (some today) today rk pu si pl w ∧
       ∀ t', taf_add taf profile dateField today rk pu si pl w = .ok t' →
         (alookup t' today).isSome = true) := by
  intro taf profile dateField today rk pu si pl w h
  have hd : taf_effective_date dateField today = today := by
    rcases h with h | h <;> simp [taf_effective_date, h]
  have hd2 : taf_effective_date (some today) today = today := by
    simp [taf_effective_date]
  refine ⟨hd, ?_, ?_⟩
  · simp only [taf_add, hd, hd2]
  · intro t' ht
    have hb := taf_add_ok_lookup taf profile dateField today rk pu si pl w t' today _
      hd.symm rfl ht
    rcases hb with ⟨_, hl⟩ | ⟨_, _, _, _, _, hl⟩ <;> simp [hl]

/-- Witness for C10: a dateless push-ups-only submission on an empty store
upserts the row keyed by today (2024-06-01). -/
theorem C10_dateless_targets_today_witness :
    taf_effective_date none "2024-06-01" = "2024-06-01" ∧
    (alookup [("2024-06-01",
      (⟨none, none, some 25, none, none, none, none⟩ : TafRow))] "2024-06-01").isSome
      = true := by
  have h := C10_dateless_targets_today [] ⟨some (1.71 : ℚ), some "1999-06-19"⟩ none
    "2024-06-01" none (some 25) none none none (Or.inl rfl)
  exact ⟨h.1, h.2.2 _ rfl⟩

/-- C9: initialisation seeds the singleton profile with height 1.71 and
birthdate 1999-06-19 when it is absent, backfills exactly the NULL fields with
those defaults on later runs, never overwrites a non-null field, and — since
every request begins with initialisation and no endpoint deletes the profile —
after any handled request the store holds exactly one profile row (the
`CHECK (id=1)` singleton). -/
theorem C9_profile_singleton :
    ensure_profile none = ⟨some (1.71 : ℚ), some "1999-06-19"⟩ ∧
    (∀ p hgt, p.height_m = some hgt → (ensure_profile (some p)).height_m = some hgt) ∧
    (∀ p b, p.birthdate = some b → (ensure_profile (some p)).birthdate = some b) ∧
    (∀ p, p.height_m = none → (ensure_profile (some p)).height_m = some (1.71 : ℚ)) ∧
    (∀ p, p.birthdate = none →
      (ensure_profile (some p)).birthdate = some "1999-06-19") ∧
    (∀ (s : Store) (op : Op), ((step s op).user_profile).isSome = true) := by
  refine ⟨rfl, ?_, ?_, ?_, ?_, ?_⟩
  · intro p hgt h
    simp [ensure_profile, h]
  · intro p b h
    simp [ensure_profile, h]
  · intro p h
    simp [ensure_profile, h]
  · intro p h
    simp [ensure_profile, h]
  · intro s op
    cases op <;> simp only [step, ensure_schema_and_profile] <;>
      (try split) <;> simp

/-- Witness for C9: a pre-existing non-null height 2 is kept, NULL fields are
backfilled with the defaults, and a request on an empty store leaves the
profile present. -/
theorem C9_profile_singleton_witness :
    (ensure_profile (some ⟨some 2, none⟩)).height_m = some (2 : ℚ) ∧
    (ensure_profile (some ⟨none, some "1990-01-01"⟩)).birthdate = some "1990-01-01" ∧
    (ensure_profile (some ⟨none, none⟩)).height_m = some (1.71 : ℚ) ∧
    (ensure_profile (some ⟨some 2, none⟩)).birthdate = some "1999-06-19" ∧
    ((step ⟨[], [], [], none⟩ (.calClear "2024-13-40")).user_profile).isSome = true := by
  refine ⟨C9_profile_singleton.2.1 ⟨some 2, none⟩ 2 rfl,
    C9_profile_singleton.2.2.1 ⟨none, some "1990-01-01"⟩ "1990-01-01" rfl,
    C9_profile_singleton.2.2.2.1 ⟨none, none⟩ rfl,
    C9_profile_singleton.2.2.2.2.1 ⟨some 2, none⟩ rfl,
    C9_profile_singleton.2.2.2.2.2 ⟨[], [], [], none⟩ (.calClear "2024-13-40")⟩

/-! ### Exam statistics lemmas -/

/-- Over rows whose question counts are positive, the truthiness filter of the
percentage comprehension keeps every row. -/
theorem filterMap_percents_of_pos (rows : List SimRow) (h : ∀ r ∈ rows, 0 < r.q) :
    rows.filterMap (fun r =>
        if r.q ≠ 0 then some ((100 : ℚ) * (r.a : ℚ) / (r.q : ℚ)) else none) =
      rows.map (fun r => (100 : ℚ) * (r.a : ℚ) / (r.q : ℚ)) := by
  induction rows with
  | nil => rfl
  | cons r t ih =>
    have hq : r.q ≠ 0 := ne_of_gt (h r (List.mem_cons_self r t))
    have ht := ih (fun x hx => h x (List.mem_cons_of_mem _ hx))
    simp [List.filterMap_cons, List.map_cons, hq]
    simpa using ht

/-- C5: over stored exam rows (all of which have positive question counts,
per the insert-time constraints), the view statistics are exactly the
spec-side aggregation — per-row percentage `100 × a / q` over rows with
`q > 0`, with count, mean, maximum and minimum; the two attempts
(q=10, a=8) and (q=20, a=10) yield count 2, avg 65, best 80, worst 50; the
empty table yields count 0 with all aggregates 0 rather than an error. -/
theorem C5_exam_stats :
    (∀ rows : List SimRow, (∀ r ∈ rows, 0 < r.q) →
      simulados_stats rows = specExamStats rows) ∧
    simulados_stats [⟨1, "2024-01-01", 10, 8, ""⟩, ⟨2, "2024-01-02", 20, 10, ""⟩] =
      ⟨2, 65, 80, 50⟩ ∧
    simulados_stats [] = ⟨0, 0, 0, 0⟩ := by
  refine ⟨?_, ?_, rfl⟩
  · intro rows h
    have hfilter : rows.filter (fun r => 0 < r.q) = rows :=
      List.filter_eq_self.2 (fun a ha => by simpa using h a ha)
    rcases rows with _ | ⟨r0, rest⟩
    · rfl
    · have hfm := filterMap_percents_of_pos (r0 :: rest) h
      simp only [simulados_stats, specExamStats, hfilter, hfm]
      simp
  · simp [simulados_stats, listMax, listMin]
    norm_num

/-- Witness for C5: the code statistics agree with the spec aggregation on a
concrete one-row table. -/
theorem C5_exam_stats_witness :
    simulados_stats [⟨1, "2024-01-05", 4, 2, ""⟩] =
      specExamStats [⟨1, "2024-01-05", 4, 2, ""⟩] :=
  C5_exam_stats.1 [⟨1, "2024-01-05", 4, 2, ""⟩] (by decide)

/-! ### Calendar grid lemmas -/

/-- Every in-month cell reports membership in the month. -/
theorem dayCell_in_month (cal : List (String × CalRow)) (y m1 d : Nat) :
    (dayCell cal y m1 d).in_month = true := by
  rcases h : alookup cal (isoformat y m1 d) with _ | r <;> simp [dayCell, h]

/-- Explicit shape of an in-month cell. -/
theorem dayCell_eq (cal : List (String × CalRow)) (y m1 d : Nat) :
    dayCell cal y m1 d = ⟨true, some d, some (isoformat y m1 d),
      some (match alookup cal (isoformat y m1 d) with
        | some r => r.note
        | none => ""),
      some (match alookup cal (isoformat y m1 d) with
        | some r => r.status
        | none => "none")⟩ := by
  rcases h : alookup cal (isoformat y m1 d) with _ | r <;> simp [dayCell, h]

/-- Tail padding makes the grid length a multiple of 7. -/
theorem padToWeek_length_mod (g : List Cell) : (padToWeek g).length % 7 = 0 := by
  unfold padToWeek
  rw [List.length_append, List.length_replicate]
  omega

/-- Tail padding does not disturb existing positions. -/
theorem padToWeek_getElem (g : List Cell) (i : Nat) (h : i < g.length) :
    (padToWeek g)[i]? = g[i]? := by
  unfold padToWeek
  rw [List.getElem?_append, if_pos h]

/-- Monday-based weekdays are below 7. -/
theorem weekday_lt_7 (y m d : Nat) : weekday y m d < 7 :=
  Nat.mod_lt _ (by norm_num)

/-- Python's `(first_weekday - 6) % 7` equals `(first_weekday + 1) % 7` for a
Monday-based weekday, the Sunday-first column of the month's first day. -/
theorem pad_start_eq (fw : Nat) :
    (((fw : Int) - 6) % 7).toNat = (fw + 1) % 7 := by
  omega

/-- The grid is tail-padded leading padding plus one cell per month day. -/
theorem calendar_grid_eq (cal : List (String × CalRow)) (year month : Nat) :
    calendar_grid cal year month =
      padToWeek (List.replicate (((monthrange year (month + 1)).1 + 1) % 7) padCell ++
        (List.range' 1 (monthrange year (month + 1)).2).map
          (dayCell cal year (month + 1))) := by
  simp only [calendar_grid]
  rw [pad_start_eq ((monthrange year (month + 1)).1)]

/-- The in-month cells of the padded grid are exactly the month's days. -/
theorem grid_filter_length (cal : List (String × CalRow)) (y m1 pad days : Nat) :
    ((padToWeek (List.replicate pad padCell ++
        (List.range' 1 days).map (dayCell cal y m1))).filter
      (fun c => c.in_month)).length = days := by
  unfold padToWeek
  rw [List.filter_append, List.filter_append]
  have hpadf : ∀ n, (List.replicate n padCell).filter (fun c => c.in_month) = [] := by
    intro n
    rw [List.filter_eq_nil_iff]
    intro a ha
    rw [List.eq_of_mem_replicate ha]
    simp [padCell]
  rw [hpadf, hpadf, List.filter_map]
  have : (List.range' 1 days).filter ((fun c => c.in_month) ∘ dayCell cal y m1) =
      List.range' 1 days := by
    rw [List.filter_eq_self]
    intro a _
    simpa using dayCell_in_month cal y m1 a
  rw [this]
  simp

/-- Positions below the leading padding hold padding cells. -/
theorem grid_get_pad (cal : List (String × CalRow)) (y m1 pad days i : Nat)
    (h : i < pad) :
    (padToWeek (List.replicate pad padCell ++
      (List.range' 1 days).map (dayCell cal y m1)))[i]? = some padCell := by
  rw [padToWeek_getElem]
  · rw [List.getElem?_append, if_pos (by simpa using h), List.getElem?_replicate,
      if_pos h]
  · rw [List.length_append, List.length_replicate]
    omega

/-- Position `pad + (d − 1)` of the padded grid holds the cell of month
day `d`. -/
theorem grid_get_day (cal : List (String × CalRow)) (y m1 pad days d : Nat)
    (h1 : 1 ≤ d) (h2 : d ≤ days) :
    (padToWeek (List.replicate pad padCell ++
      (List.range' 1 days).map (dayCell cal y m1)))[pad + (d - 1)]? =
      some (dayCell cal y m1 d) := by
  rw [padToWeek_getElem]
  · rw [List.getElem?_append_right (by simp)]
    rw [List.length_replicate, Nat.add_sub_cancel_left, List.getElem?_map,
      List.getElem?_range' 1 1 (by omega)]
    have : 1 + 1 * (d - 1) = d := by omega
    rw [this]
    rfl
  · rw [List.length_append, List.length_replicate, List.length_map,
      List.length_range']
    omega

/-- C3: for every year/0-based-month in `datetime`'s range and every calendar
table, the grid's length is a multiple of 7; its in-month cells number exactly
the month's day count; the cells before position `(first_weekday + 1) % 7`
(the Sunday-first column of the month's first day, where `first_weekday` is
Monday-based) are padding; and the cell of month day `d` sits `d − 1` slots
after that padding, carrying the stored note/status of its ISO date or
`("", "none")` when no row exists. -/
theorem C3_calendar_grid :
    ∀ (cal : List (String × CalRow)) (year month : Nat),
      1 ≤ year → year ≤ 9999 → month ≤ 11 →
      ((calendar_grid cal year month).length % 7 = 0 ∧
       ((calendar_grid cal year month).filter (fun c => c.in_month)).length =
         (monthrange year (month + 1)).2 ∧
       (∀ i, i < ((monthrange year (month + 1)).1 + 1) % 7 →
         (calendar_grid cal year month)[i]? = some padCell) ∧
       (∀ d, 1 ≤ d → d ≤ (monthrange year (month + 1)).2 →
         (calendar_grid cal year month)[(((monthrange year (month + 1)).1 + 1) % 7)
             + (d - 1)]? =
           some ⟨true, some d, some (isoformat year (month + 1) d),
             some (match alookup cal (isoformat year (month + 1) d) with
               | some r => r.note
               | none => ""),
             some (match alookup cal (isoformat year (month + 1) d) with
               | some r => r.status
               | none => "none")⟩)) := by
  intro cal year month _ _ _
  rw [calendar_grid_eq]
  refine ⟨padToWeek_length_mod _, grid_filter_length cal year (month + 1) _ _, ?_, ?_⟩
  · intro i hi
    exact grid_get_pad cal year (month + 1) _ _ i hi
  · intro d h1 h2
    rw [grid_get_day cal year (month + 1) _ _ d h1 h2, dayCell_eq]

/-- Witness for C3: January 2024 (which starts on a Monday) over a table with
one stored day: 35 cells, 31 of them in-month, one leading padding cell, and
day 15 carries its stored note/status. -/
theorem C3_calendar_grid_witness :
    (calendar_grid [("2024-01-15", ⟨"x", "ok"⟩)] 2024 0).length % 7 = 0 ∧
    ((calendar_grid [("2024-01-15", ⟨"x", "ok"⟩)] 2024 0).filter
      (fun c => c.in_month)).length = 31 ∧
    (calendar_grid [("2024-01-15", ⟨"x", "ok"⟩)] 2024 0)[0]? = some padCell ∧
    (calendar_grid [("2024-01-15", ⟨"x", "ok"⟩)] 2024
        0)[(((monthrange 2024 1).1 + 1) % 7) + (15 - 1)]? =
      some ⟨true, some 15, some "2024-01-15", some "x", some "ok"⟩ := by
  have h := C3_calendar_grid [("2024-01-15", ⟨"x", "ok"⟩)] 2024 0 (by norm_num)
    (by norm_num) (by norm_num)
  refine ⟨h.1, h.2.1.trans (by decide), ?_, ?_⟩
  · exact h.2.2.1 0 (by decide)
  · exact (h.2.2.2 15 (by norm_num) (by decide)).trans (by decide)

/-! ### Calendar save lemmas -/

/-- One save-loop iteration leaves every other date's row untouched. -/
theorem calendar_save_day_other (noteF statusF : String → Option String)
    (cal cal' : List (String × CalRow)) (k k' : String)
    (h : calendar_save_day noteF statusF cal k = .ok cal') (hne : k' ≠ k) :
    alookup cal' k' = alookup cal k' := by
  simp only [calendar_save_day] at h
  split at h
  · split at h
    · cases h
      exact alookup_aupdate_ne cal k k' _ hne
    · cases h
  · split at h
    · split at h
      · cases h
        exact alookup_append_single_ne cal k k' _ hne
      · cases h
    · cases h
      rfl

/-- One save-loop iteration stores, at its own date, the computed note/status
— updating an existing row, creating a missing one only when non-empty. -/
theorem calendar_save_day_self (noteF statusF : String → Option String)
    (cal cal' : List (String × CalRow)) (k : String)
    (h : calendar_save_day noteF statusF cal k = .ok cal') :
    alookup cal' k =
      (match alookup cal k with
       | some _ => some (⟨saved_note noteF k, saved_status statusF cal k⟩ : CalRow)
       | none =>
         if saved_note noteF k ≠ "" ∨ saved_status statusF cal k ≠ "none" then
           some ⟨saved_note noteF k, saved_status statusF cal k⟩
         else none) := by
  simp only [calendar_save_day] at h
  split at h
  · next r hlk =>
    split at h
    · cases h
      rw [alookup_aupdate_self]
      simp [hlk]
    · cases h
  · next hlk =>
    split at h
    · next hcre =>
      split at h
      · cases h
        rw [alookup_append_single_self cal k _ hlk]
        simp [hlk, hcre]
      · cases h
    · next hcre =>
      cases h
      simp [hlk, hcre]

/-- Folding the save loop over dates not containing `k` leaves `k`'s row
untouched. -/
theorem save_fold_not_mem (noteF statusF : String → Option String) :
    ∀ (l : List String) (cal cal' : List (String × CalRow)) (k : String),
      k ∉ l →
      l.foldlM (calendar_save_day noteF statusF) cal = .ok cal' →
      alookup cal' k = alookup cal k := by
  intro l
  induction l with
  | nil =>
    intro cal cal' k _ h
    rw [List.foldlM_nil] at h
    cases h
    rfl
  | cons x xs ih =>
    intro cal cal' k hk h
    rw [List.foldlM_cons] at h
    rcases hx : calendar_save_day noteF statusF cal x with e | c1 <;> rw [hx] at h
    · have h2 : (Except.error e : Except Unit (List (String × CalRow))) = .ok cal' := h
      cases h2
    · have h2 : xs.foldlM (calendar_save_day noteF statusF) c1 = .ok cal' := h
      have hne : k ≠ x := fun e => hk (e ▸ List.mem_cons_self x xs)
      rw [ih c1 cal' k (fun hm => hk (List.mem_cons_of_mem _ hm)) h2]
      exact calendar_save_day_other noteF statusF cal c1 x k hx hne

/-- Folding the save loop over a duplicate-free date list containing `k`
stores at `k` exactly the one-step result over the original table. -/
theorem save_fold_lookup (noteF statusF : String → Option String) :
    ∀ (l : List String) (cal cal' : List (String × CalRow)) (k : String),
      k ∈ l → l.Nodup →
      l.foldlM (calendar_save_day noteF statusF) cal = .ok cal' →
      alookup cal' k =
        (match alookup cal k with
         | some _ => some (⟨saved_note noteF k, saved_status statusF cal k⟩ : CalRow)
         | none =>
           if saved_note noteF k ≠ "" ∨ saved_status statusF cal k ≠ "none" then
             some ⟨saved_note noteF k, saved_status statusF cal k⟩
           else none) := by
  intro l
  induction l with
  | nil =>
    intro cal cal' k hk
    cases hk
  | cons x xs ih =>
    intro cal cal' k hk hnd h
    rw [List.foldlM_cons] at h
    rcases hx : calendar_save_day noteF statusF cal x with e | c1 <;> rw [hx] at h
    · have h2 : (Except.error e : Except Unit (List (String × CalRow))) = .ok cal' := h
      cases h2
    · have h2 : xs.foldlM (calendar_save_day noteF statusF) c1 = .ok cal' := h
      rcases List.mem_cons.1 hk with rfl | hmem
      · have hnotin : k ∉ xs := (List.nodup_cons.1 hnd).1
        rw [save_fold_not_mem noteF statusF xs c1 cal' k hnotin h2]
        exact calendar_save_day_self noteF statusF cal c1 k hx
      · have hne : k ≠ x := by
          rintro rfl
          exact (List.nodup_cons.1 hnd).1 hmem
        have hpre : alookup c1 k = alookup cal k :=
          calendar_save_day_other noteF statusF cal c1 x k hx hne
        have hss : saved_status statusF c1 k = saved_status statusF cal k := by
          unfold saved_status calStatus
          rw [hpre]
        rw [ih c1 cal' k hmem (List.nodup_cons.1 hnd).2 h2, hpre, hss]

/-- Per-date characterisation of a successful month save. -/
theorem calendar_save_lookup (cal : List (String × CalRow)) (year month : Nat)
    (noteF statusF : String → Option String) (cal' : List (String × CalRow))
    (cdate : String)
    (hnd : (month_dates year month).Nodup)
    (h : calendar_save cal year month noteF statusF = .ok cal')
    (hmem : cdate ∈ month_dates year month) :
    alookup cal' cdate =
      (match alookup cal cdate with
       | some _ =>
         some (⟨saved_note noteF cdate, saved_status statusF cal cdate⟩ : CalRow)
       | none =>
         if saved_note noteF cdate ≠ "" ∨ saved_status statusF cal cdate ≠ "none" then
           some ⟨saved_note noteF cdate, saved_status statusF cal cdate⟩
         else none) := by
  unfold calendar_save at h
  by_cases hc : month ≥ 12 ∨ year = 0 ∨ year > 9999
  · rw [if_pos hc] at h
    cases h
  · rw [if_neg hc] at h
    exact save_fold_lookup noteF statusF (month_dates year month) cal cal' cdate hmem hnd h

/-- C4: saving a month with no submitted status for a day (absent or empty
field) preserves that day's stored status — defaulting to `'none'` when no
row exists — and stores the whitespace-stripped submitted note; hence saving
note `"x"`, status `"ok"` for 2024-01-15 and then saving that month again
with no status field leaves the stored status `"ok"`. -/
theorem C4_status_preserved :
    (∀ (cal : List (String × CalRow)) (year month : Nat)
       (noteF statusF : String → Option String) (cal' : List (String × CalRow))
       (cdate : String),
      (month_dates year month).Nodup →
      calendar_save cal year month noteF statusF = .ok cal' →
      cdate ∈ month_dates year month →
      (statusF cdate = none ∨ statusF cdate = some "") →
      (calStatus cal' cdate = calStatus cal cdate ∧
       ∀ r', alookup cal' cdate = some r' →
         r'.note = strip ((noteF cdate).getD ""))) ∧
    (∀ (noteF2 : String → Option String) (cal₁ cal₂ : List (String × CalRow)),
      calendar_save [] 2024 0
        (fun k => if k = "2024-01-15" then some "x" else none)
        (fun k => if k = "2024-01-15" then some "ok" else none) = .ok cal₁ →
      calendar_save cal₁ 2024 0 noteF2 (fun _ => none) = .ok cal₂ →
      calStatus cal₂ "2024-01-15" = "ok") := by
  have main : ∀ (cal : List (String × CalRow)) (year month : Nat)
      (noteF statusF : String → Option String) (cal' : List (String × CalRow))
      (cdate : String),
      (month_dates year month).Nodup →
      calendar_save cal year month noteF statusF = .ok cal' →
      cdate ∈ month_dates year month →
      (statusF cdate = none ∨ statusF cdate = some "") →
      (calStatus cal' cdate = calStatus cal cdate ∧
       ∀ r', alookup cal' cdate = some r' →
         r'.note = strip ((noteF cdate).getD "")) := by
    intro cal year month noteF statusF cal' cdate hnd h hmem hsf
    have hl := calendar_save_lookup cal year month noteF statusF cal' cdate hnd h hmem
    have hss : saved_status statusF cal cdate = calStatus cal cdate := by
      rcases hsf with h1 | h1 <;> simp [saved_status, h1]
    constructor
    · unfold calStatus
      rcases hlk : alookup cal cdate with _ | r <;> simp only [hlk] at hl ⊢ <;>
        rw [hl]
      · by_cases hcre : saved_note noteF cdate ≠ "" ∨
            saved_status statusF cal cdate ≠ "none"
        · rw [if_pos hcre]
          show saved_status statusF cal cdate = "none"
          rw [hss]
          simp [calStatus, hlk]
        · rw [if_neg hcre]
      · show saved_status statusF cal cdate = r.status
        rw [hss]
        simp [calStatus, hlk]
    · intro r' hr'
      rw [hl] at hr'
      rcases hlk : alookup cal cdate with _ | r <;> simp only [hlk] at hr'
      · by_cases hcre : saved_note noteF cdate ≠ "" ∨
            saved_status statusF cal cdate ≠ "none"
        · rw [if_pos hcre] at hr'
          cases hr'
          rfl
        · rw [if_neg hcre] at hr'
          cases hr'
      · cases hr'
        rfl
  refine ⟨main, ?_⟩
  intro noteF2 cal₁ cal₂ h1 h2
  have hc1 : calendar_save [] 2024 0
      (fun k => if k = "2024-01-15" then some "x" else none)
      (fun k => if k = "2024-01-15" then some "ok" else none) =
      .ok [("2024-01-15", ⟨"x", "ok"⟩)] := by rfl
  rw [hc1] at h1
  cases h1
  have h := main [("2024-01-15", ⟨"x", "ok"⟩)] 2024 0 noteF2 (fun _ => none) cal₂
    "2024-01-15" (by decide) h2 (by decide) (Or.inl rfl)
  rw [h.1]
  rfl

/-- Witness for C4: resaving January 2024 with every field absent keeps the
stored status `"ok"` of 2024-01-15 and stores the stripped empty note. -/
theorem C4_status_preserved_witness :
    calStatus [("2024-01-15", (⟨"", "ok"⟩ : CalRow))] "2024-01-15" =
      calStatus [("2024-01-15", (⟨"x", "ok"⟩ : CalRow))] "2024-01-15" ∧
    (⟨"", "ok"⟩ : CalRow).note = strip "" := by
  have h := C4_status_preserved.1 [("2024-01-15", ⟨"x", "ok"⟩)] 2024 0
    (fun _ => none) (fun _ => none) [("2024-01-15", ⟨"", "ok"⟩)] "2024-01-15"
    (by decide) rfl (by decide) (Or.inl rfl)
  exact ⟨h.1, h.2 ⟨"", "ok"⟩ rfl⟩

end Planner
